import Mathlib

/-!
Verification of the visual-grounding core of the Softlight workflow capturer.

The development shallowly embeds the element-filtering pipeline of
`BrowserManager.capture_state_with_overlays`, the action-resolution logic and
loop guard of `WorkflowCapturer.run_task`, the click fallback chain of
`BrowserManager.click_element`, and the oracle error handling of
`VisionAgent.analyze_state_and_decide`.  Geometry uses exact rationals in
place of Python floats; element metadata not read by the modelled logic
(id, placeholder, input type) is omitted from the record.
-/

set_option allowUnsafeReducibility true

attribute [semireducible] Rat.mul Rat.add Rat.sub Rat.inv Rat.div

/-- A bounding box in screenshot pixel coordinates, as produced by
`getBoundingClientRect` (the `rect` dict of a scanned element). -/
structure Rect where
  x : ℚ
  y : ℚ
  width : ℚ
  height : ℚ
deriving DecidableEq, Repr, Inhabited

/-- `width * height`, the `el_area` quantity computed throughout the source. -/
def rectArea (r : Rect) : ℚ := r.width * r.height

/-- A scanned interactive element.  Fields are the ones the filtering and
resolution code reads: `tagName`, `text`, `ariaLabel`, `role`, `rect`. -/
structure Element where
  tagName : String
  text : String
  ariaLabel : Option String
  role : Option String
  rect : Rect
deriving DecidableEq, Repr, Inhabited

/-- `compute_iou` from `browser_manager.py`: intersection over union of two
rectangles, 0 when they do not overlap or the union is degenerate. -/
def compute_iou (rect1 rect2 : Rect) : ℚ :=
  let xi1 := max rect1.x rect2.x
  let yi1 := max rect1.y rect2.y
  let xi2 := min (rect1.x + rect1.width) (rect2.x + rect2.width)
  let yi2 := min (rect1.y + rect1.height) (rect2.y + rect2.height)
  if xi2 ≤ xi1 ∨ yi2 ≤ yi1 then 0
  else
    let interArea := (xi2 - xi1) * (yi2 - yi1)
    let unionArea := rect1.width * rect1.height + rect2.width * rect2.height - interArea
    if 0 < unionArea then interArea / unionArea else 0

/-- `compute_containment` from `browser_manager.py`: the fraction of `rect1`
lying inside `rect2`, 0 when they do not overlap or `rect1` is degenerate. -/
def compute_containment (rect1 rect2 : Rect) : ℚ :=
  let xi1 := max rect1.x rect2.x
  let yi1 := max rect1.y rect2.y
  let xi2 := min (rect1.x + rect1.width) (rect2.x + rect2.width)
  let yi2 := min (rect1.y + rect1.height) (rect2.y + rect2.height)
  if xi2 ≤ xi1 ∨ yi2 ≤ yi1 then 0
  else
    let interArea := (xi2 - xi1) * (yi2 - yi1)
    let area1 := rect1.width * rect1.height
    if 0 < area1 then interArea / area1 else 0

/-- The `is_input` classification of `capture_state_with_overlays`: tag is
`input`/`textarea`, or role is `textbox`/`searchbox`. -/
def isInput (el : Element) : Bool :=
  (el.tagName == "input" || el.tagName == "textarea")
    || (el.role == some "textbox" || el.role == some "searchbox")

/-- The visibility pre-filter of `capture_state_with_overlays` step 2:
`x >= 0 and y >= 0 and w > 5 and h > 5`. -/
def isVisible (el : Element) : Bool :=
  decide (0 ≤ el.rect.x) && decide (0 ≤ el.rect.y)
    && decide ((5 : ℚ) < el.rect.width) && decide ((5 : ℚ) < el.rect.height)

/-- Ordering used by `visible_elements.sort(key=lambda el: width * height)`. -/
def areaRel (a b : Element) : Prop := rectArea a.rect ≤ rectArea b.rect

instance : DecidableRel areaRel :=
  fun a b => inferInstanceAs (Decidable (rectArea a.rect ≤ rectArea b.rect))

/-- The `should_keep` condition of the greedy overlap filter: an element is
kept against the accepted list `acc` when it is input-like, or when no kept
element gives IoU above 0.9 or containment above 0.95. -/
def overlayKeep (acc : List Element) (el : Element) : Bool :=
  isInput el || acc.all (fun kept =>
    !(decide ((9 : ℚ)/10 < compute_iou el.rect kept.rect)
       || decide ((95 : ℚ)/100 < compute_containment el.rect kept.rect)))

/-- The greedy accept/reject loop of `capture_state_with_overlays`:
candidates are tested against the already-accepted list `acc`; survivors of
the overlap test are dropped anyway when their area exceeds 250000 and they
are not input-like, otherwise appended. -/
def overlayPass (acc : List Element) : List Element → List Element
  | [] => acc
  | el :: rest =>
    if overlayKeep acc el then
      if decide ((250000 : ℚ) < rectArea el.rect) && !isInput el then
        overlayPass acc rest
      else
        overlayPass (acc ++ [el]) rest
    else
      overlayPass acc rest

/-- The element-filtering pipeline of `capture_state_with_overlays`:
visibility pre-filter, stable ascending-area sort, then the greedy overlap
and area-ceiling pass.  The position of an element in the returned list is
the index drawn on the overlay (the re-indexing loop). -/
def capture_state_with_overlays (raw : List Element) : List Element :=
  let visible := raw.filter isVisible
  let sortedEls := List.insertionSort areaRel visible
  overlayPass [] sortedEls

/-- Relation proved pairwise on the filter output: a later-accepted
non-input element has IoU at most 0.9 with each earlier element and lies
inside it with containment at most 0.95. -/
def overlapOK (a b : Element) : Prop :=
  isInput b = false →
    compute_iou b.rect a.rect ≤ 9/10 ∧ compute_containment b.rect a.rect ≤ 95/100

theorem overlayKeep_spec {acc : List Element} {el : Element}
    (hk : overlayKeep acc el = true) (hinp : isInput el = false) :
    ∀ kept ∈ acc, compute_iou el.rect kept.rect ≤ 9/10 ∧
      compute_containment el.rect kept.rect ≤ 95/100 := by
  intro kept hmem
  unfold overlayKeep at hk
  rw [hinp, Bool.false_or, List.all_eq_true] at hk
  have h := hk kept hmem
  rw [Bool.not_eq_true', Bool.or_eq_false_iff, decide_eq_false_iff_not,
    decide_eq_false_iff_not] at h
  exact ⟨le_of_not_lt h.1, le_of_not_lt h.2⟩

theorem overlayPass_pairwise (l : List Element) :
    ∀ acc, List.Pairwise overlapOK acc →
      List.Pairwise overlapOK (overlayPass acc l) := by
  induction l with
  | nil => intro acc h; simpa [overlayPass] using h
  | cons el rest ih =>
    intro acc h
    by_cases hk : overlayKeep acc el = true
    · by_cases hbig : (decide ((250000 : ℚ) < rectArea el.rect) && !isInput el) = true
      · simpa [overlayPass, hk, hbig] using ih acc h
      · have hacc : List.Pairwise overlapOK (acc ++ [el]) := by
          rw [List.pairwise_append]
          refine ⟨h, List.pairwise_singleton _ _, ?_⟩
          intro a ha b hb
          have hb' : b = el := by simpa using hb
          subst hb'
          intro hinp
          exact overlayKeep_spec hk hinp a ha
        simpa [overlayPass, hk, hbig] using ih (acc ++ [el]) hacc
    · have hk' : overlayKeep acc el = false := by
        simpa [Bool.not_eq_true] using hk
      simpa [overlayPass, hk'] using ih acc h

theorem overlayPass_area (l : List Element) :
    ∀ acc, (∀ a ∈ acc, isInput a = false → rectArea a.rect ≤ 250000) →
      ∀ el ∈ overlayPass acc l, isInput el = false → rectArea el.rect ≤ 250000 := by
  induction l with
  | nil => intro acc h; simpa [overlayPass] using h
  | cons el rest ih =>
    intro acc h
    by_cases hk : overlayKeep acc el = true
    · by_cases hbig : (decide ((250000 : ℚ) < rectArea el.rect) && !isInput el) = true
      · simpa [overlayPass, hk, hbig] using ih acc h
      · have hacc : ∀ a ∈ acc ++ [el], isInput a = false → rectArea a.rect ≤ 250000 := by
          intro a ha hainp
          rcases List.mem_append.mp ha with ha' | ha'
          · exact h a ha' hainp
          · have ha'' : a = el := by simpa using ha'
            subst ha''
            rw [Bool.and_eq_true, Bool.not_eq_true', decide_eq_true_eq] at hbig
            push_neg at hbig
            rcases lt_or_le 250000 (rectArea a.rect) with hlt | hle
            · exact absurd (hbig hlt) (by simp [hainp])
            · exact hle
        simpa [overlayPass, hk, hbig] using ih (acc ++ [el]) hacc
    · have hk' : overlayKeep acc el = false := by
        simpa [Bool.not_eq_true] using hk
      simpa [overlayPass, hk'] using ih acc h

theorem overlayPass_acc_subset (l : List Element) :
    ∀ acc a, a ∈ acc → a ∈ overlayPass acc l := by
  induction l with
  | nil => intro acc a ha; simpa [overlayPass] using ha
  | cons el rest ih =>
    intro acc a ha
    by_cases hk : overlayKeep acc el = true
    · by_cases hbig : (decide ((250000 : ℚ) < rectArea el.rect) && !isInput el) = true
      · simpa [overlayPass, hk, hbig] using ih acc a ha
      · have : a ∈ acc ++ [el] := List.mem_append.mpr (Or.inl ha)
        simpa [overlayPass, hk, hbig] using ih (acc ++ [el]) a this
    · have hk' : overlayKeep acc el = false := by
        simpa [Bool.not_eq_true] using hk
      simpa [overlayPass, hk'] using ih acc a ha

theorem overlayPass_input_mem (l : List Element) :
    ∀ acc el, isInput el = true → el ∈ l → el ∈ overlayPass acc l := by
  induction l with
  | nil => intro acc el _ h; exact absurd h (List.not_mem_nil el)
  | cons x rest ih =>
    intro acc el hinp hmem
    rcases List.mem_cons.mp hmem with heq | hrest
    · subst heq
      have hk : overlayKeep acc el = true := by
        unfold overlayKeep
        rw [hinp, Bool.true_or]
      have hbig : (decide ((250000 : ℚ) < rectArea el.rect) && !isInput el) = false := by
        rw [hinp]
        simp
      have : el ∈ acc ++ [el] := List.mem_append.mpr (Or.inr (List.mem_singleton.mpr rfl))
      simpa [overlayPass, hk, hbig] using overlayPass_acc_subset rest (acc ++ [el]) el this
    · by_cases hk : overlayKeep acc x = true
      · by_cases hbig : (decide ((250000 : ℚ) < rectArea x.rect) && !isInput x) = true
        · simpa [overlayPass, hk, hbig] using ih acc el hinp hrest
        · simpa [overlayPass, hk, hbig] using ih (acc ++ [x]) el hinp hrest
      · have hk' : overlayKeep acc x = false := by
          simpa [Bool.not_eq_true] using hk
        simpa [overlayPass, hk'] using ih acc el hinp hrest

/-- Prefix test on character lists, auxiliary to the substring test. -/
def isPrefixChars : List Char → List Char → Bool
  | [], _ => true
  | _ :: _, [] => false
  | a :: as, b :: bs => a == b && isPrefixChars as bs

/-- Contiguous-substring test on character lists, modelling the Python
string operator `in`. -/
def isInfixChars : List Char → List Char → Bool
  | needle, [] => needle.isEmpty
  | needle, hay@(_ :: t) => isPrefixChars needle hay || isInfixChars needle t

/-- `a` occurs as a contiguous substring of `b` (Python `a in b`). -/
def substr (a b : String) : Bool := isInfixChars a.toList b.toList

/-- Python `str.lower()`, written over the character list so that it
evaluates in the kernel. -/
def strLower (s : String) : String := String.mk (s.toList.map Char.toLower)

/-- The match test of the mismatch rescan in `run_task`:
`text.lower() in el_text or el_text in text.lower()`, where `tLower` is the
lowered expected text and `elTextLower` the lowered element text. -/
def matchCond (tLower elTextLower : String) : Bool :=
  substr tLower elTextLower || substr elTextLower tLower

/-- The mismatch guard of the click resolution in `run_task`:
`text and text.lower() not in item_text and item_text not in text.lower()`,
with `itemTextLower` already lowered. -/
def textMismatch (tstr itemTextLower : String) : Bool :=
  !(tstr == "") && !(substr (strLower tstr) itemTextLower)
    && !(substr itemTextLower (strLower tstr))

/-- The scan building `matches` in the click resolution of `run_task`:
elements whose lowered text substring-matches the lowered expected text in
either direction, recorded as `(index, element, area)` in scan order. -/
def rescanAux (tLower : String) (i : Nat) : List Element → List (Nat × Element × ℚ)
  | [] => []
  | el :: rest =>
    if matchCond tLower (strLower el.text) then
      (i, el, rectArea el.rect) :: rescanAux tLower (i + 1) rest
    else
      rescanAux tLower (i + 1) rest

/-- `matches` for expected text `tstr` over the filtered element list. -/
def rescan (tstr : String) (els : List Element) : List (Nat × Element × ℚ) :=
  rescanAux (strLower tstr) 0 els

/-- Ordering used by `matches.sort(key=lambda x: x[2])`. -/
def tripleAreaLe (a b : Nat × Element × ℚ) : Prop := a.2.2 ≤ b.2.2

instance : DecidableRel tripleAreaLe :=
  fun a b => inferInstanceAs (Decidable (a.2.2 ≤ b.2.2))

/-- Stage 1 of the click resolution in `run_task`: when the expected text is
nonempty and fails the two-way substring check against the indexed element,
rescan the filtered set and take the smallest-area match (stable sort, so
ties fall to scan order); otherwise keep the indexed element. -/
def resolveStage1 (els : List Element) (idx : Nat) (item : Element)
    (tstr : String) : Nat × Element :=
  if textMismatch tstr (strLower item.text) then
    match List.insertionSort tripleAreaLe (rescan tstr els) with
    | [] => (idx, item)
    | m :: _ => (m.1, m.2.1)
  else
    (idx, item)

/-- The scan building `better_matches` in the small-target branch of
`run_task`: elements whose lowered text plus aria label substring-matches
the expected text in either direction and whose area exceeds 500. -/
def betterAux (fullText : String) (i : Nat) : List Element → List (Nat × Element × ℚ)
  | [] => []
  | el :: rest =>
    let combined := strLower el.text ++ " " ++ strLower (el.ariaLabel.getD "")
    if substr fullText combined || substr combined fullText then
      if (500 : ℚ) < rectArea el.rect then
        (i, el, rectArea el.rect) :: betterAux fullText (i + 1) rest
      else
        betterAux fullText (i + 1) rest
    else
      betterAux fullText (i + 1) rest

/-- Stage 2 of the click resolution in `run_task`: when the resolved element
is smaller than 500 square pixels and the expected text is longer than 3
characters, redirect to the smallest match above the threshold if any. -/
def resolveStage2 (els : List Element) (tstr : String) (idx : Nat)
    (item : Element) : Nat × Element :=
  if rectArea item.rect < 500 ∧ tstr ≠ "" ∧ 3 < tstr.length then
    match List.insertionSort tripleAreaLe (betterAux (strLower tstr) 0 els) with
    | [] => (idx, item)
    | m :: _ => (m.1, m.2.1)
  else
    (idx, item)

/-- Full resolution for a click with a valid index: stage 1 then stage 2. -/
def resolveFrom (els : List Element) (idx : Nat) (item : Element)
    (tstr : String) : Nat × Element :=
  let s1 := resolveStage1 els idx item tstr
  resolveStage2 els tstr s1.1 s1.2

/-- The `click` branch of `run_task` for an index-bearing proposal: when the
index is an integer within bounds, resolve to a concrete element; otherwise
no coordinates are produced and the click falls back to selector or text. -/
def clickResolved (els : List Element) (idxParam : Option Int)
    (text : Option String) : Option (Nat × Element) :=
  match idxParam with
  | none => none
  | some i =>
    if 0 ≤ i ∧ i < (els.length : Int) then
      match els.get? i.toNat with
      | some item => some (resolveFrom els i.toNat item (text.getD ""))
      | none => none
    else
      none

/-- Coordinates passed to `click_element` by the `click` branch. -/
def clickCoords (els : List Element) (idxParam : Option Int)
    (text : Option String) : Option Rect :=
  (clickResolved els idxParam text).map (fun p => p.2.rect)

/-- Target rectangle of the `type` branch of `run_task`: a valid index is
dereferenced directly (`item = interactive_elements[idx]; coords =
item.get("rect")`), with no text verification and no rescan; no index means
blind typing, an invalid index means selector-based typing. -/
def typeCoords (els : List Element) (idxParam : Option Int) : Option Rect :=
  match idxParam with
  | none => none
  | some i =>
    if 0 ≤ i ∧ i < (els.length : Int) then
      (els.get? i.toNat).map (fun e => e.rect)
    else
      none


/-- The earliest element of a list attaining the least value of `f`; this is
what indexing a stably sorted list at 0 returns. -/
def firstMinBy {α : Type} (f : α → ℚ) : List α → Option α
  | [] => none
  | a :: l =>
    match firstMinBy f l with
    | none => some a
    | some b => if f a ≤ f b then some a else some b

theorem firstMinBy_cons {α : Type} (f : α → ℚ) (a : α) (l : List α) :
    firstMinBy f (a :: l) =
      match firstMinBy f l with
      | none => some a
      | some b => if f a ≤ f b then some a else some b := rfl

theorem firstMinBy_cons_none {α : Type} {f : α → ℚ} {a : α} {l : List α}
    (h : firstMinBy f l = none) : firstMinBy f (a :: l) = some a := by
  rw [firstMinBy_cons, h]

theorem firstMinBy_cons_some {α : Type} {f : α → ℚ} {a b : α} {l : List α}
    (h : firstMinBy f l = some b) :
    firstMinBy f (a :: l) = if f a ≤ f b then some a else some b := by
  rw [firstMinBy_cons, h]

theorem firstMinBy_eq_none {α : Type} (f : α → ℚ) :
    ∀ l : List α, firstMinBy f l = none → l = [] := by
  intro l h
  cases l with
  | nil => rfl
  | cons a t =>
    exfalso
    cases ht : firstMinBy f t with
    | none => rw [firstMinBy_cons_none ht] at h; exact Option.noConfusion h
    | some b =>
      rw [firstMinBy_cons_some ht] at h
      by_cases hle : f a ≤ f b
      · rw [if_pos hle] at h; exact Option.noConfusion h
      · rw [if_neg hle] at h; exact Option.noConfusion h

theorem firstMinBy_mem {α : Type} (f : α → ℚ) :
    ∀ (l : List α) (a : α), firstMinBy f l = some a → a ∈ l := by
  intro l
  induction l with
  | nil => intro a h; exact absurd h (by simp [firstMinBy])
  | cons x t ih =>
    intro a h
    cases ht : firstMinBy f t with
    | none =>
      rw [firstMinBy_cons_none ht] at h
      exact (Option.some.inj h) ▸ List.mem_cons_self x t
    | some b =>
      rw [firstMinBy_cons_some ht] at h
      by_cases hle : f x ≤ f b
      · rw [if_pos hle] at h
        exact (Option.some.inj h) ▸ List.mem_cons_self x t
      · rw [if_neg hle] at h
        exact List.mem_cons_of_mem x ((Option.some.inj h) ▸ ih b ht)

theorem firstMinBy_le {α : Type} (f : α → ℚ) :
    ∀ (l : List α) (a : α), firstMinBy f l = some a → ∀ x ∈ l, f a ≤ f x := by
  intro l
  induction l with
  | nil => intro a h; exact absurd h (by simp [firstMinBy])
  | cons y t ih =>
    intro a h x hx
    cases ht : firstMinBy f t with
    | none =>
      rw [firstMinBy_cons_none ht] at h
      have hya : y = a := Option.some.inj h
      have ht2 : t = [] := firstMinBy_eq_none f t ht
      subst ht2
      have hxy : x = y := by simpa using hx
      rw [hxy, hya]
    | some b =>
      rw [firstMinBy_cons_some ht] at h
      rcases List.mem_cons.mp hx with hxy | hxt
      · subst hxy
        by_cases hle : f x ≤ f b
        · rw [if_pos hle] at h
          rw [Option.some.inj h]
        · rw [if_neg hle] at h
          rw [← Option.some.inj h]
          exact le_of_lt (lt_of_not_le hle)
      · by_cases hle : f y ≤ f b
        · rw [if_pos hle] at h
          rw [← Option.some.inj h]
          exact le_trans hle (ih b ht x hxt)
        · rw [if_neg hle] at h
          rw [← Option.some.inj h]
          exact ih b ht x hxt

theorem firstMinBy_tie {α : Type} (f : α → ℚ) (g : α → Nat) :
    ∀ (l : List α) (a : α), List.Pairwise (fun x y => g x < g y) l →
      firstMinBy f l = some a → ∀ x ∈ l, f x = f a → g a ≤ g x := by
  intro l
  induction l with
  | nil => intro a _ h; exact absurd h (by simp [firstMinBy])
  | cons y t ih =>
    intro a hp h x hx hfx
    have hp2 := List.pairwise_cons.mp hp
    cases ht : firstMinBy f t with
    | none =>
      rw [firstMinBy_cons_none ht] at h
      have hya : y = a := Option.some.inj h
      have ht2 : t = [] := firstMinBy_eq_none f t ht
      subst ht2
      have hxy : x = y := by simpa using hx
      rw [hxy, hya]
    | some b =>
      rw [firstMinBy_cons_some ht] at h
      by_cases hle : f y ≤ f b
      · rw [if_pos hle] at h
        have hya : y = a := Option.some.inj h
        rcases List.mem_cons.mp hx with hxy | hxt
        · rw [hxy, hya]
        · exact le_of_lt (hya ▸ hp2.1 x hxt)
      · rw [if_neg hle] at h
        have hba : b = a := Option.some.inj h
        rcases List.mem_cons.mp hx with hxy | hxt
        · exfalso
          apply hle
          rw [hxy] at hfx
          rw [hfx, hba]
        · exact hba ▸ ih b hp2.2 ht x hxt (hba ▸ hfx)

theorem head_orderedInsert (a : Nat × Element × ℚ) (l : List (Nat × Element × ℚ)) :
    (List.orderedInsert tripleAreaLe a l).head? =
      some (match l.head? with
      | none => a
      | some b => if a.2.2 ≤ b.2.2 then a else b) := by
  cases l with
  | nil => simp [List.orderedInsert]
  | cons b t =>
    by_cases h : a.2.2 ≤ b.2.2
    · have h2 : tripleAreaLe a b := h
      simp [List.orderedInsert, if_pos h2, h]
    · have h2 : ¬ tripleAreaLe a b := h
      simp [List.orderedInsert, if_neg h2, h]

theorem head_insertionSort (l : List (Nat × Element × ℚ)) :
    (List.insertionSort tripleAreaLe l).head? = firstMinBy (fun m => m.2.2) l := by
  induction l with
  | nil => simp [List.insertionSort, firstMinBy]
  | cons a l ih =>
    rw [List.insertionSort, head_orderedInsert, ih, firstMinBy_cons]
    cases hfm : firstMinBy (fun m => m.2.2) l with
    | none => rfl
    | some b => by_cases h : a.2.2 ≤ b.2.2 <;> simp [h]

theorem rescanAux_idx_ge (tLower : String) :
    ∀ (l : List Element) (i : Nat), ∀ m ∈ rescanAux tLower i l, i ≤ m.1 := by
  intro l
  induction l with
  | nil => intro i m hm; exact absurd hm (by simp [rescanAux])
  | cons el rest ih =>
    intro i m hm
    by_cases hc : matchCond tLower (strLower el.text) = true
    · rw [rescanAux, if_pos hc] at hm
      rcases List.mem_cons.mp hm with h1 | h2
      · rw [h1]
      · exact le_trans (Nat.le_succ i) (ih (i + 1) m h2)
    · rw [rescanAux, if_neg hc] at hm
      exact le_trans (Nat.le_succ i) (ih (i + 1) m hm)

theorem rescanAux_pairwise (tLower : String) :
    ∀ (l : List Element) (i : Nat),
      List.Pairwise (fun x y : Nat × Element × ℚ => x.1 < y.1)
        (rescanAux tLower i l) := by
  intro l
  induction l with
  | nil => intro i; simp [rescanAux]
  | cons el rest ih =>
    intro i
    by_cases hc : matchCond tLower (strLower el.text) = true
    · rw [rescanAux, if_pos hc, List.pairwise_cons]
      constructor
      · intro m hm
        have := rescanAux_idx_ge tLower rest (i + 1) m hm
        omega
      · exact ih (i + 1)
    · rw [rescanAux, if_neg hc]
      exact ih (i + 1)

theorem rescanAux_get (tLower : String) :
    ∀ (l : List Element) (i : Nat), ∀ m ∈ rescanAux tLower i l,
      l.get? (m.1 - i) = some m.2.1 ∧ m.2.2 = rectArea m.2.1.rect ∧
        matchCond tLower (strLower m.2.1.text) = true := by
  intro l
  induction l with
  | nil => intro i m hm; exact absurd hm (by simp [rescanAux])
  | cons el rest ih =>
    intro i m hm
    by_cases hc : matchCond tLower (strLower el.text) = true
    · rw [rescanAux, if_pos hc] at hm
      rcases List.mem_cons.mp hm with h1 | h2
      · subst h1
        refine ⟨?_, rfl, hc⟩
        simp
      · have hge := rescanAux_idx_ge tLower rest (i + 1) m h2
        have := ih (i + 1) m h2
        refine ⟨?_, this.2⟩
        have hsub : m.1 - i = (m.1 - (i + 1)) + 1 := by omega
        rw [hsub]
        simpa using this.1
    · rw [rescanAux, if_neg hc] at hm
      have hge := rescanAux_idx_ge tLower rest (i + 1) m hm
      have := ih (i + 1) m hm
      refine ⟨?_, this.2⟩
      have hsub : m.1 - i = (m.1 - (i + 1)) + 1 := by omega
      rw [hsub]
      simpa using this.1

theorem rescanAux_mem_of_get (tLower : String) :
    ∀ (l : List Element) (i j : Nat) (el : Element), l.get? j = some el →
      matchCond tLower (strLower el.text) = true →
      (i + j, el, rectArea el.rect) ∈ rescanAux tLower i l := by
  intro l
  induction l with
  | nil => intro i j el hget; exact absurd hget (by simp)
  | cons x rest ih =>
    intro i j el hget hmc
    cases j with
    | zero =>
      have hx : x = el := by simpa using hget
      subst hx
      rw [rescanAux, if_pos hmc]
      simp
    | succ j2 =>
      have hget2 : rest.get? j2 = some el := by simpa using hget
      have := ih (i + 1) j2 el hget2 hmc
      have harith : i + 1 + j2 = i + (j2 + 1) := by omega
      by_cases hc : matchCond tLower (strLower x.text) = true
      · rw [rescanAux, if_pos hc]
        exact List.mem_cons_of_mem _ (harith ▸ this)
      · rw [rescanAux, if_neg hc]
        exact harith ▸ this

theorem firstMinBy_isSome {α : Type} (f : α → ℚ) (l : List α) (h : l ≠ []) :
    ∃ a, firstMinBy f l = some a := by
  cases hm : firstMinBy f l with
  | none => exact absurd (firstMinBy_eq_none f l hm) h
  | some a => exact ⟨a, rfl⟩

theorem resolveStage1_of_mismatch {els : List Element} {idx : Nat}
    {item : Element} {tstr : String}
    (hmis : textMismatch tstr (strLower item.text) = true)
    {m : Nat × Element × ℚ}
    (hfm : firstMinBy (fun m => m.2.2) (rescan tstr els) = some m) :
    resolveStage1 els idx item tstr = (m.1, m.2.1) := by
  unfold resolveStage1
  rw [if_pos hmis]
  have hh := head_insertionSort (rescan tstr els)
  rw [hfm] at hh
  cases hs : List.insertionSort tripleAreaLe (rescan tstr els) with
  | nil => rw [hs] at hh; exact absurd hh (by simp)
  | cons a t =>
    rw [hs] at hh
    simp only [List.head?_cons, Option.some.injEq] at hh
    subst hh
    rfl

theorem isInfixChars_nil (hay : List Char) : isInfixChars [] hay = true := by
  cases hay with
  | nil => rfl
  | cons c t => rw [isInfixChars]; simp [isPrefixChars]

theorem matchCond_empty_el (tLower : String) : matchCond tLower "" = true := by
  unfold matchCond
  have h : substr "" tLower = true := isInfixChars_nil tLower.toList
  rw [h, Bool.or_true]

/-- A raw element with only the fields the modelled code reads. -/
def mkEl (tag text : String) (rect : Rect) : Element := ⟨tag, text, none, none, rect⟩

/-- Element list of the spec scenario for C3: index 2 reads `Crate`, index 5
reads `Create` and is the smallest match for the expected text `Create`. -/
def scenarioEls : List Element :=
  [ mkEl "button" "Alpha" ⟨0, 0, 30, 30⟩
  , mkEl "button" "Beta" ⟨40, 0, 30, 30⟩
  , mkEl "button" "Crate" ⟨80, 0, 40, 25⟩
  , mkEl "button" "Delta" ⟨0, 40, 30, 30⟩
  , mkEl "button" "Create item" ⟨40, 40, 50, 40⟩
  , mkEl "button" "Create" ⟨100, 40, 20, 30⟩ ]

/-- Claim C3: for a click proposal with a valid index and a nonempty
expected text that fails the two-way case-insensitive substring comparison
against the indexed element, the resolver selects from the whole filtered
set the substring-matching element of least area, ties falling to scan
order; in the Crate/Create scenario it selects index 5. -/
theorem C3_resolver_rescan :
    (∀ (els : List Element) (idx : Nat) (item : Element) (tstr : String),
      els.get? idx = some item →
      textMismatch tstr (strLower item.text) = true →
      rescan tstr els ≠ [] →
      ∃ m ∈ rescan tstr els,
        resolveStage1 els idx item tstr = (m.1, m.2.1) ∧
        (∀ m2 ∈ rescan tstr els, m.2.2 ≤ m2.2.2) ∧
        (∀ m2 ∈ rescan tstr els, m2.2.2 = m.2.2 → m.1 ≤ m2.1))
    ∧ clickResolved scenarioEls (some 2) (some "Create")
        = some (5, mkEl "button" "Create" ⟨100, 40, 20, 30⟩) := by
  constructor
  · intro els idx item tstr _ hmis hne
    obtain ⟨m, hm⟩ := firstMinBy_isSome (fun m => m.2.2) (rescan tstr els) hne
    refine ⟨m, firstMinBy_mem _ _ _ hm, resolveStage1_of_mismatch hmis hm, ?_, ?_⟩
    · exact fun m2 h2 => firstMinBy_le _ _ _ hm m2 h2
    · intro m2 h2 he
      exact firstMinBy_tie (fun x => x.2.2) (fun x => x.1) (rescan tstr els) m
        (rescanAux_pairwise (strLower tstr) els 0) hm m2 h2 he
  · decide

/-- Closed instantiation of the general part of C3 at the scenario input. -/
theorem C3_witness :
    ∃ m ∈ rescan "Create" scenarioEls,
      resolveStage1 scenarioEls 2 (mkEl "button" "Crate" ⟨80, 0, 40, 25⟩) "Create"
          = (m.1, m.2.1) ∧
      (∀ m2 ∈ rescan "Create" scenarioEls, m.2.2 ≤ m2.2.2) ∧
      (∀ m2 ∈ rescan "Create" scenarioEls, m2.2.2 = m.2.2 → m.1 ≤ m2.1) :=
  C3_resolver_rescan.1 scenarioEls 2 (mkEl "button" "Crate" ⟨80, 0, 40, 25⟩)
    "Create" (by decide) (by decide) (by decide)

/-- Claim C10: in the mismatch rescan, an element with empty text
substring-matches every expected text, since the empty string is a
substring of anything under the two-way test; every empty-text element of
the filtered set therefore enters the match list, and when such an element
is strictly smallest among the matches the click is redirected to it. -/
theorem C10_empty_text_matches :
    (∀ tLower : String, matchCond tLower (strLower "") = true)
    ∧ (∀ (tstr : String) (els : List Element) (j : Nat) (e : Element),
        els.get? j = some e → e.text = "" →
        (j, e, rectArea e.rect) ∈ rescan tstr els)
    ∧ (∀ (els : List Element) (idx : Nat) (item : Element) (tstr : String)
        (j : Nat) (e : Element),
        textMismatch tstr (strLower item.text) = true →
        els.get? j = some e → e.text = "" →
        (∀ m ∈ rescan tstr els, m.1 ≠ j → rectArea e.rect < m.2.2) →
        resolveStage1 els idx item tstr = (j, e)) := by
  have hmemOfEmpty : ∀ (tstr : String) (els : List Element) (j : Nat) (e : Element),
      els.get? j = some e → e.text = "" → (j, e, rectArea e.rect) ∈ rescan tstr els := by
    intro tstr els j e hget htext
    have hmc : matchCond (strLower tstr) (strLower e.text) = true := by
      rw [htext]; exact matchCond_empty_el _
    have h := rescanAux_mem_of_get (strLower tstr) els 0 j e hget hmc
    simpa [rescan] using h
  refine ⟨fun t => matchCond_empty_el t, hmemOfEmpty, ?_⟩
  intro els idx item tstr j e hmis hget htext hmin
  have hmem := hmemOfEmpty tstr els j e hget htext
  have hne : rescan tstr els ≠ [] := List.ne_nil_of_mem hmem
  obtain ⟨m, hm⟩ := firstMinBy_isSome (fun m => m.2.2) (rescan tstr els) hne
  have hmmem := firstMinBy_mem (fun m => m.2.2) (rescan tstr els) m hm
  have hle := firstMinBy_le (fun m => m.2.2) (rescan tstr els) m hm
    (j, e, rectArea e.rect) hmem
  have hj : m.1 = j := by
    by_contra hne2
    exact absurd hle (not_le.mpr (hmin m hmmem hne2))
  have hspec := rescanAux_get (strLower tstr) els 0 m hmmem
  have hget2 : els.get? j = some m.2.1 := by
    have h1 := hspec.1
    simpa [hj] using h1
  have he : m.2.1 = e := Option.some.inj (hget2.symm.trans hget)
  rw [resolveStage1_of_mismatch hmis hm, hj, he]

/-- Element list for the C10 witness: index 0 reads `Save`, index 1 has
empty text and the least area. -/
def emptyTextEls : List Element :=
  [ mkEl "button" "Save" ⟨0, 0, 20, 20⟩
  , mkEl "button" "" ⟨30, 0, 10, 10⟩ ]

/-- Closed instantiation of C10: with expected text `Open` mismatching the
indexed `Save` button, the click is redirected to the empty-text element. -/
theorem C10_witness :
    resolveStage1 emptyTextEls 0 (mkEl "button" "Save" ⟨0, 0, 20, 20⟩) "Open"
      = (1, mkEl "button" "" ⟨30, 0, 10, 10⟩) :=
  C10_empty_text_matches.2.2 emptyTextEls 0 (mkEl "button" "Save" ⟨0, 0, 20, 20⟩)
    "Open" 1 (mkEl "button" "" ⟨30, 0, 10, 10⟩)
    (by decide) (by decide) (by decide) (by decide)

/-- Claim C8 counterexample: on the Crate/Create element list, a `type`
proposal with index 2 targets the indexed `Crate` rectangle directly, while
the click resolution for the same index and expected text `Create` is
redirected to index 5; the two branches do not share the resolution
procedure. -/
theorem C8_counterexample :
    typeCoords scenarioEls (some 2) = some ⟨80, 0, 40, 25⟩
    ∧ clickCoords scenarioEls (some 2) (some "Create") = some ⟨100, 40, 20, 30⟩
    ∧ typeCoords scenarioEls (some 2)
        ≠ clickCoords scenarioEls (some 2) (some "Create") := by
  exact ⟨by decide, by decide, by decide⟩

/-- Claim C8 amended: a `type` proposal with a valid element index uses the
indexed element rectangle as the click-to-focus target directly, with no
expected-text rescan and no small-target search. -/
theorem C8_amended_type_uses_index :
    ∀ (els : List Element) (i : Int) (e : Element),
      0 ≤ i → i < (els.length : Int) → els.get? i.toNat = some e →
      typeCoords els (some i) = some e.rect := by
  intro els i e h0 hlen hget
  show (if 0 ≤ i ∧ i < (els.length : Int) then
      (els.get? i.toNat).map (fun e => e.rect) else none) = some e.rect
  rw [if_pos ⟨h0, hlen⟩, hget]
  rfl

/-- Closed instantiation of the amended C8 at the scenario list. -/
theorem C8_witness : typeCoords scenarioEls (some 2) = some ⟨80, 0, 40, 25⟩ :=
  C8_amended_type_uses_index scenarioEls 2 (mkEl "button" "Crate" ⟨80, 0, 40, 25⟩)
    (by decide) (by decide) (by decide)

/-- Claim C9: no non-input element surviving the overlay filter has area
above the 250000 square pixel ceiling. -/
theorem C9_area_ceiling :
    ∀ raw : List Element, ∀ el ∈ capture_state_with_overlays raw,
      isInput el = false → rectArea el.rect ≤ 250000 := by
  intro raw el hmem hinp
  exact overlayPass_area _ []
    (by intro a ha; exact absurd ha (List.not_mem_nil a)) el hmem hinp

/-- Closed instantiation of C9 on a singleton element list. -/
theorem C9_witness : rectArea (Rect.mk 0 0 30 30) ≤ 250000 :=
  C9_area_ceiling [mkEl "button" "Go" ⟨0, 0, 30, 30⟩]
    (mkEl "button" "Go" ⟨0, 0, 30, 30⟩) (by decide) (by decide)

/-- The two non-input boxes of the C1 counterexample: a small box fully
inside a large one, with IoU 0.01 and checked containment 0.01, so both
survive the filter while the small box is fully contained in the large. -/
def smallBox : Element := mkEl "div" "row" ⟨0, 0, 10, 10⟩

/-- Large companion box of the C1 counterexample. -/
def bigBox : Element := mkEl "div" "panel" ⟨0, 0, 100, 100⟩

/-- Claim C1 counterexample: both boxes survive the filter, yet the earlier
accepted element lies fully inside the later one, containment 1 above the
0.95 bound; the invariant does not hold in both directions. -/
theorem C1_counterexample :
    capture_state_with_overlays [bigBox, smallBox] = [smallBox, bigBox]
    ∧ isInput smallBox = false
    ∧ isInput bigBox = false
    ∧ compute_containment smallBox.rect bigBox.rect = 1
    ∧ ¬ compute_containment smallBox.rect bigBox.rect ≤ 95/100 := by
  exact ⟨by decide, by decide, by decide, by decide, by decide⟩

/-- Claim C1 amended: pairwise over the filter output in acceptance order,
a later non-input element has IoU at most 0.9 with every earlier element
and containment at most 0.95 inside it; the reverse containment direction
is not checked by the code and can exceed the bound. -/
theorem C1_amended_pairwise (raw : List Element) :
    List.Pairwise overlapOK (capture_state_with_overlays raw) :=
  overlayPass_pairwise _ [] List.Pairwise.nil

/-- An input-like element rejected by the visibility pre-filter because of
its negative x coordinate. -/
def offscreenInput : Element := mkEl "input" "Name" ⟨-1, 10, 50, 20⟩

/-- Claim C2 counterexample: an input-like raw element at negative x is
dropped by the visibility pre-filter, so it does not appear in the output
even though it is input-like. -/
theorem C2_counterexample :
    isInput offscreenInput = true
    ∧ capture_state_with_overlays [offscreenInput] = [] := by
  exact ⟨by decide, by decide⟩

/-- Claim C2 amended: every input-like raw element that passes the
visibility pre-filter (x and y nonnegative, width and height above 5)
survives the overlap and area-ceiling rules regardless of its geometry. -/
theorem C2_amended_inputs_survive :
    ∀ (raw : List Element) (el : Element), el ∈ raw → isInput el = true →
      isVisible el = true → el ∈ capture_state_with_overlays raw := by
  intro raw el hmem hinp hvis
  unfold capture_state_with_overlays
  apply overlayPass_input_mem _ [] el hinp
  have h1 : el ∈ raw.filter isVisible := List.mem_filter.mpr ⟨hmem, hvis⟩
  exact ((List.perm_insertionSort areaRel (raw.filter isVisible)).mem_iff).mpr h1

/-- Closed instantiation of the amended C2: a tiny input fully inside an
accepted button still appears in the output. -/
theorem C2_witness :
    (mkEl "input" "Query" ⟨10, 10, 8, 8⟩) ∈ capture_state_with_overlays
      [mkEl "button" "Search" ⟨0, 0, 50, 50⟩, mkEl "input" "Query" ⟨10, 10, 8, 8⟩] :=
  C2_amended_inputs_survive _ _ (by decide) (by decide) (by decide)

/-- The decision dictionary produced by the oracle, as read by `run_task`:
`action` plus the parameters the loop inspects.  A missing parameter is
`none`, mirroring `params.get(...)` returning `None`. -/
structure Decision where
  action : String
  selector : Option String
  text : Option String
  element_index : Option Int
  key : Option String
  direction : Option String
  url : Option String
  reason : Option String
deriving DecidableEq, Repr, Inhabited

/-- Outcome of the oracle round-trip in `analyze_state_and_decide`: either
an exception was raised during the API call or the JSON parse, or a parsed
decision payload came back. -/
inductive OracleResponse where
  | apiError (msg : String)
  | payload (d : Decision)
deriving DecidableEq, Repr

/-- Error handling of `VisionAgent.analyze_state_and_decide`: an exception
from the call or the parse is converted to a `fail` decision carrying the
error text; a payload that parses is returned unchanged, whatever its
`action` field holds. -/
def analyze_state_and_decide : OracleResponse → Decision
  | OracleResponse.apiError e =>
    { action := "fail", selector := none, text := none, element_index := none,
      key := none, direction := none, url := none, reason := some e }
  | OracleResponse.payload d => d

/-- The loop-detection key of `run_task`:
the f-string over action, text parameter and element index parameter. -/
def actionKey (d : Decision) : String :=
  d.action ++ "_" ++ d.text.getD "" ++ "_"
    ++ (match d.element_index with
        | some i => toString i
        | none => "")

/-- Loop-guard state of `run_task`: `last_action_key` and
`consecutive_same_action`. -/
structure GuardState where
  lastKey : Option String
  count : Nat
deriving DecidableEq, Repr

/-- One loop-guard update: on a repeated key the counter increments and the
stall flag fires at 3; on a differing key the counter resets to 1 and the
new key is stored. -/
def guardStep (s : GuardState) (k : String) : GuardState × Bool :=
  if s.lastKey = some k then
    (⟨s.lastKey, s.count + 1⟩, decide (3 ≤ s.count + 1))
  else
    (⟨some k, 1⟩, false)

/-- One-based position of the first stall over a key sequence, from a given
guard state and already-processed step count. -/
def stallIndexAux : GuardState → Nat → List String → Option Nat
  | _, _, [] => none
  | s, n, k :: ks =>
    if (guardStep s k).2 then some (n + 1)
    else stallIndexAux (guardStep s k).1 (n + 1) ks

/-- One-based position of the first stall from the initial guard state. -/
def stallIndex (keys : List String) : Option Nat := stallIndexAux ⟨none, 0⟩ 0 keys

/-- Guard state after processing a key sequence from the initial state. -/
def guardFold (keys : List String) : GuardState :=
  keys.foldl (fun s k => (guardStep s k).1) ⟨none, 0⟩

/-- Python truthiness of the optional string parameters tested by
`click_element` when choosing a locator. -/
def truthy : Option String → Bool
  | none => false
  | some s => !(s == "")

/-- The locator fallback of `BrowserManager.click_element`: a selector or a
text content yields a locator whose click may succeed; with no locator, or
a locator whose click fails, the `ValueError` at the end of the function is
raised. -/
def clickFallback (locatorWorks : Bool) (textContent selector : Option String) :
    Except String Unit :=
  if truthy selector || truthy textContent then
    if locatorWorks then Except.ok ()
    else Except.error "Could not click: No valid coordinates or selector worked."
  else Except.error "Could not click: No valid coordinates or selector worked."

/-- `BrowserManager.click_element`: a coordinate click is tried first when
coordinates are given; its failure, or their absence, falls through to the
locator fallback. -/
def click_element (coordsWork locatorWorks : Bool)
    (textContent selector : Option String) (coords : Option Rect) :
    Except String Unit :=
  match coords with
  | some _ =>
    if coordsWork then Except.ok ()
    else clickFallback locatorWorks textContent selector
  | none => clickFallback locatorWorks textContent selector

/-- Scripted input for one loop iteration of `run_task`: the oracle
response, the filtered element list captured that step, and whether the two
actuator click primitives succeed. -/
structure StepSpec where
  oracle : OracleResponse
  elements : List Element
  coordClickWorks : Bool
  locatorClickWorks : Bool
deriving DecidableEq, Repr

/-- How a run of the loop ends.  `outOfScript` is a model artifact for the
scripted oracle running out of responses. -/
inductive Halt where
  | finished
  | failed
  | stalled
  | ceiling
  | outOfScript
  | error (msg : String)
deriving DecidableEq, Repr

/-- Observable outcome of the loop: number of manifest entries appended,
number of actions dispatched to the actuator, and how the loop ended. -/
structure LoopOut where
  manifest : Nat
  executed : Nat
  halt : Halt
deriving DecidableEq, Repr

/-- The `type` branch of `run_task`: no index types blind into the focused
field; a valid index clicks the indexed element rectangle to focus it (an
exception from that click propagates) and then types; an invalid index
falls back to `type_text`, which catches its own failures. -/
def typeDispatch (spec : StepSpec) (d : Decision) : Except String Unit :=
  match d.element_index with
  | none => Except.ok ()
  | some i =>
    if 0 ≤ i ∧ i < (spec.elements.length : Int) then
      match typeCoords spec.elements (some i) with
      | some r =>
        click_element spec.coordClickWorks spec.locatorClickWorks none none (some r)
      | none => Except.ok ()
    else
      Except.ok ()

/-- The Observe-Decide-Act loop of `run_task` over scripted step inputs.
Per iteration, in source order: the step ceiling test, the manifest entry,
the loop-guard update with its stall break, then the action dispatch, where
`finish` and `fail` break, `click` and the focus click of `type` can raise
and abort the loop, and an unrecognized action is only printed. -/
def runLoop (guard : GuardState) (stepNum manifest executed : Nat) :
    List StepSpec → LoopOut
  | [] => ⟨manifest, executed, Halt.outOfScript⟩
  | spec :: rest =>
    if 20 ≤ stepNum then ⟨manifest, executed, Halt.ceiling⟩
    else if (guardStep guard (actionKey (analyze_state_and_decide spec.oracle))).2 then
      ⟨manifest + 1, executed, Halt.stalled⟩
    else if (analyze_state_and_decide spec.oracle).action == "finish" then
      ⟨manifest + 1, executed, Halt.finished⟩
    else if (analyze_state_and_decide spec.oracle).action == "fail" then
      ⟨manifest + 1, executed, Halt.failed⟩
    else if (analyze_state_and_decide spec.oracle).action == "click" then
      match click_element spec.coordClickWorks spec.locatorClickWorks
          (analyze_state_and_decide spec.oracle).text
          (analyze_state_and_decide spec.oracle).selector
          (clickCoords spec.elements
            (analyze_state_and_decide spec.oracle).element_index
            (analyze_state_and_decide spec.oracle).text) with
      | Except.ok _ =>
        runLoop (guardStep guard (actionKey (analyze_state_and_decide spec.oracle))).1
          (stepNum + 1) (manifest + 1) (executed + 1) rest
      | Except.error e => ⟨manifest + 1, executed, Halt.error e⟩
    else if (analyze_state_and_decide spec.oracle).action == "type" then
      match typeDispatch spec (analyze_state_and_decide spec.oracle) with
      | Except.ok _ =>
        runLoop (guardStep guard (actionKey (analyze_state_and_decide spec.oracle))).1
          (stepNum + 1) (manifest + 1) (executed + 1) rest
      | Except.error e => ⟨manifest + 1, executed, Halt.error e⟩
    else if (analyze_state_and_decide spec.oracle).action == "press"
        || (analyze_state_and_decide spec.oracle).action == "scroll"
        || (analyze_state_and_decide spec.oracle).action == "navigate" then
      runLoop (guardStep guard (actionKey (analyze_state_and_decide spec.oracle))).1
        (stepNum + 1) (manifest + 1) (executed + 1) rest
    else
      runLoop (guardStep guard (actionKey (analyze_state_and_decide spec.oracle))).1
        (stepNum + 1) (manifest + 1) executed rest

/-- Observable outcome of a whole `run_task` call: whether the manifest file
was written and with how many state entries, whether the browser session was
stopped, and whether an exception escaped to the caller. -/
structure RunResult where
  manifestSaved : Bool
  manifestStates : Nat
  executed : Nat
  browserStopped : Bool
  raisedToCaller : Bool
  halt : Option Halt
deriving DecidableEq, Repr

/-- `WorkflowCapturer.run_task`: `browser.start()` sits before the try
block, so a start failure propagates with no manifest written and no stop;
the navigate call and the loop sit inside the try, whose except handler
swallows the exception and whose finally clause always writes the manifest
and stops the browser. -/
def run_task (startFails navigateFails : Bool) (steps : List StepSpec) : RunResult :=
  if startFails then
    ⟨false, 0, 0, false, true, none⟩
  else if navigateFails then
    ⟨true, 0, 0, true, false, some (Halt.error "navigation failed")⟩
  else
    ⟨true, (runLoop ⟨none, 0⟩ 0 0 0 steps).manifest,
      (runLoop ⟨none, 0⟩ 0 0 0 steps).executed, true, false,
      some (runLoop ⟨none, 0⟩ 0 0 0 steps).halt⟩

theorem guardStep_reset {s : GuardState} {k : String} (h : s.lastKey ≠ some k) :
    guardStep s k = (⟨some k, 1⟩, false) := by
  unfold guardStep
  rw [if_neg h]

theorem guardStep_same {s : GuardState} {k : String} (h : s.lastKey = some k) :
    guardStep s k = (⟨some k, s.count + 1⟩, decide (3 ≤ s.count + 1)) := by
  unfold guardStep
  rw [if_pos h, h]

theorem guardStep_stall {s : GuardState} {k : String}
    (h : (guardStep s k).2 = true) : s.lastKey = some k ∧ 2 ≤ s.count := by
  by_cases hk : s.lastKey = some k
  · refine ⟨hk, ?_⟩
    rw [guardStep_same hk] at h
    simp only [decide_eq_true_eq] at h
    omega
  · rw [guardStep_reset hk] at h
    exact absurd h (by simp)

theorem guardFold_append (l : List String) (k : String) :
    guardFold (l ++ [k]) = (guardStep (guardFold l) k).1 := by
  unfold guardFold
  rw [List.foldl_append]
  rfl

theorem guardFold_spec (keys : List String) :
    (guardFold keys = ⟨none, 0⟩ ∧ keys = [])
    ∨ (∃ k c, guardFold keys = ⟨some k, c⟩ ∧ 1 ≤ c ∧ c ≤ keys.length ∧
        ∃ p, keys = p ++ List.replicate c k) := by
  induction keys using List.reverseRecOn with
  | nil => exact Or.inl ⟨rfl, rfl⟩
  | append_singleton l a ih =>
    right
    rw [guardFold_append]
    rcases ih with ⟨hg, hl⟩ | ⟨k, c, hg, hc1, hc2, p, hp⟩
    · subst hl
      rw [hg, guardStep_reset (by simp)]
      exact ⟨a, 1, rfl, le_refl 1, by simp, [], by simp⟩
    · by_cases hka : k = a
      · subst hka
        rw [hg, guardStep_same rfl]
        refine ⟨k, c + 1, rfl, by omega, by simp; omega, p, ?_⟩
        rw [hp, List.append_assoc]
        congr 1
        rw [← List.replicate_succ']
      · rw [hg, guardStep_reset (by simp [hka])]
        exact ⟨a, 1, rfl, le_refl 1, by simp, l, by simp⟩

theorem stallIndexAux_spec :
    ∀ (ks h : List String) (i : Nat),
      stallIndexAux (guardFold h) h.length ks = some i →
      ∃ p k rest, h ++ ks = p ++ ([k, k, k] ++ rest) ∧ i = p.length + 3 := by
  intro ks
  induction ks with
  | nil => intro h i hs; exact absurd hs (by simp [stallIndexAux])
  | cons k ks2 ih =>
    intro h i hs
    rw [stallIndexAux] at hs
    by_cases hstall : (guardStep (guardFold h) k).2 = true
    · rw [if_pos hstall] at hs
      have hi : i = h.length + 1 := (Option.some.inj hs).symm
      obtain ⟨hlk, hc⟩ := guardStep_stall hstall
      rcases guardFold_spec h with ⟨hg, hl⟩ | ⟨k0, c, hg, hc1, hc2, p0, hp⟩
      · rw [hg] at hlk
        exact absurd hlk (by simp)
      · rw [hg] at hlk hc
        simp only [Option.some.injEq] at hlk
        subst hlk
        have hc2b : 2 ≤ c := hc
        refine ⟨p0 ++ List.replicate (c - 2) k0, k0, ks2, ?_, ?_⟩
        · have hkey : List.replicate c k0 ++ k0 :: ks2
              = List.replicate (c - 2) k0 ++ ([k0, k0, k0] ++ ks2) := by
            have h1 : List.replicate c k0 ++ k0 :: ks2
                = List.replicate (c + 1) k0 ++ ks2 := by
              rw [List.replicate_succ']
              simp
            have hc3 : c + 1 = (c - 2) + 3 := by omega
            rw [h1, hc3, List.replicate_add]
            simp [List.replicate_succ]
          rw [hp, List.append_assoc, hkey, List.append_assoc]
        · have hlen : h.length = p0.length + c := by
            rw [hp]
            simp
          rw [hi, hlen]
          simp only [List.length_append, List.length_replicate]
          omega
    · rw [if_neg hstall, ← guardFold_append,
        show h.length + 1 = (h ++ [k]).length by simp] at hs
      obtain ⟨p, k2, rest, heq, hi⟩ := ih (h ++ [k]) i hs
      refine ⟨p, k2, rest, ?_, hi⟩
      rw [← heq]
      simp

theorem stall_within_triple (s : GuardState) (n : Nat) (k : String)
    (rest : List String) :
    stallIndexAux s n (k :: k :: k :: rest) ≠ none := by
  rw [stallIndexAux]
  by_cases h1 : (guardStep s k).2 = true
  · rw [if_pos h1]
    simp
  · rw [if_neg h1, stallIndexAux]
    have hl1 : (guardStep s k).1.lastKey = some k := by
      by_cases hk : s.lastKey = some k
      · rw [guardStep_same hk]
      · rw [guardStep_reset hk]
    have hc1 : 1 ≤ (guardStep s k).1.count := by
      by_cases hk : s.lastKey = some k
      · rw [guardStep_same hk]
        exact Nat.le_add_left 1 s.count
      · rw [guardStep_reset hk]
    by_cases h2 : (guardStep (guardStep s k).1 k).2 = true
    · rw [if_pos h2]
      simp
    · rw [if_neg h2, stallIndexAux]
      have hst3 : (guardStep (guardStep (guardStep s k).1 k).1 k).2 = true := by
        rw [guardStep_same hl1]
        rw [guardStep_same rfl]
        simp only [decide_eq_true_eq]
        omega
      rw [if_pos hst3]
      simp

theorem stall_of_triple :
    ∀ (p : List String) (s : GuardState) (n : Nat) (k : String) (rest : List String),
      stallIndexAux s n (p ++ ([k, k, k] ++ rest)) ≠ none := by
  intro p
  induction p with
  | nil => intro s n k rest; exact stall_within_triple s n k rest
  | cons x p2 ih =>
    intro s n k rest
    rw [List.cons_append, stallIndexAux]
    by_cases h : (guardStep s x).2 = true
    · rw [if_pos h]
      simp
    · rw [if_neg h]
      exact ih _ _ k rest

/-- The repeated decision of the C4 scenario: click on index 4, empty text. -/
def clickIdx4 : Decision :=
  ⟨"click", none, some "", some 4, none, none, none, none⟩

/-- Five buttons, so that index 4 is valid in the C4 scenario. -/
def fiveButtons : List Element :=
  [ mkEl "button" "A" ⟨0, 0, 30, 30⟩
  , mkEl "button" "B" ⟨40, 0, 30, 30⟩
  , mkEl "button" "C" ⟨80, 0, 30, 30⟩
  , mkEl "button" "D" ⟨0, 40, 30, 30⟩
  , mkEl "button" "E" ⟨40, 40, 30, 30⟩ ]

/-- One scripted step of the C4 scenario; the click itself succeeds. -/
def c4Step : StepSpec := ⟨OracleResponse.payload clickIdx4, fiveButtons, true, true⟩

/-- Claim C4: the loop guard stalls exactly at the end of a block of three
consecutive identical derived keys, so never after only two; a differing
key resets the counter to 1 and stores the key; whenever three consecutive
identical keys occur the guard does stall; and on three identical click
steps the run halts stalled with three manifest entries while only two
actions were dispatched, the third repeated action staying unexecuted. -/
theorem C4_loop_guard :
    (∀ (keys : List String) (i : Nat), stallIndex keys = some i →
      ∃ p k rest, keys = p ++ ([k, k, k] ++ rest) ∧ i = p.length + 3)
    ∧ (∀ (s : GuardState) (k : String), s.lastKey ≠ some k →
        guardStep s k = (⟨some k, 1⟩, false))
    ∧ (∀ (p : List String) (k : String) (rest : List String),
        stallIndex (p ++ ([k, k, k] ++ rest)) ≠ none)
    ∧ runLoop ⟨none, 0⟩ 0 0 0 [c4Step, c4Step, c4Step]
        = ⟨3, 2, Halt.stalled⟩ := by
  refine ⟨?_, ?_, ?_, ?_⟩
  · intro keys i hs
    have h := stallIndexAux_spec keys [] i hs
    simpa using h
  · intro s k h
    exact guardStep_reset h
  · intro p k rest
    exact stall_of_triple p ⟨none, 0⟩ 0 k rest
  · decide

/-- Closed instantiation of the stall characterization of C4. -/
theorem C4_witness :
    ∃ p k rest, (["a", "a", "a"] : List String) = p ++ ([k, k, k] ++ rest)
      ∧ 3 = p.length + 3 :=
  C4_loop_guard.1 ["a", "a", "a"] 3 (by decide)

theorem runLoop_click_error {spec : StepSpec} {rest : List StepSpec} {e : String}
    (hact : (analyze_state_and_decide spec.oracle).action = "click")
    (hclick : click_element spec.coordClickWorks spec.locatorClickWorks
        (analyze_state_and_decide spec.oracle).text
        (analyze_state_and_decide spec.oracle).selector
        (clickCoords spec.elements
          (analyze_state_and_decide spec.oracle).element_index
          (analyze_state_and_decide spec.oracle).text) = Except.error e) :
    runLoop ⟨none, 0⟩ 0 0 0 (spec :: rest) = ⟨1, 0, Halt.error e⟩ := by
  rw [runLoop]
  rw [if_neg (by omega : ¬ 20 ≤ 0)]
  rw [guardStep_reset (by simp :
    (⟨none, 0⟩ : GuardState).lastKey
      ≠ some (actionKey (analyze_state_and_decide spec.oracle)))]
  rw [if_neg (by simp :
    ¬ ((⟨some (actionKey (analyze_state_and_decide spec.oracle)), 1⟩, false)
        : GuardState × Bool).2 = true)]
  rw [hact]
  rw [if_neg (by decide : ¬ (("click" : String) == "finish") = true)]
  rw [if_neg (by decide : ¬ (("click" : String) == "fail") = true)]
  rw [if_pos (by decide : (("click" : String) == "click") = true)]
  rw [hclick]

/-- Step whose click exhausts every branch: the index is valid so
coordinates are produced, the coordinate click fails, and neither a
selector nor a text content is available for the locator fallback. -/
def failingClickStep : StepSpec :=
  ⟨OracleResponse.payload ⟨"click", none, none, some 0, none, none, none, none⟩,
    [mkEl "button" "Go" ⟨0, 0, 30, 30⟩], false, false⟩

/-- A finish step scripted after the failing click, never reached. -/
def finishStep : StepSpec :=
  ⟨OracleResponse.payload ⟨"finish", none, none, none, none, none, none, none⟩,
    [], true, true⟩

/-- Claim C5 counterexample: when the click fallback chain exhausts at step
1 of a 2-step script, the run records one manifest entry and ends with the
click error; it does not continue to the second step. -/
theorem C5_counterexample :
    run_task false false [failingClickStep, finishStep]
      = ⟨true, 1, 0, true, false,
          some (Halt.error "Could not click: No valid coordinates or selector worked.")⟩ := by
  decide

/-- Claim C5 amended: exhaustion of the click fallback chain raises out of
the step loop and ends the run at that step; the run-level handler swallows
the exception, the manifest is persisted and the session closed, but the
remaining steps never run. -/
theorem C5_amended_exhaustion_halts :
    ∀ (spec : StepSpec) (rest : List StepSpec) (e : String),
      (analyze_state_and_decide spec.oracle).action = "click" →
      click_element spec.coordClickWorks spec.locatorClickWorks
          (analyze_state_and_decide spec.oracle).text
          (analyze_state_and_decide spec.oracle).selector
          (clickCoords spec.elements
            (analyze_state_and_decide spec.oracle).element_index
            (analyze_state_and_decide spec.oracle).text) = Except.error e →
      run_task false false (spec :: rest)
        = ⟨true, 1, 0, true, false, some (Halt.error e)⟩ := by
  intro spec rest e hact hclick
  have h := @runLoop_click_error spec rest e hact hclick
  show (⟨true, (runLoop ⟨none, 0⟩ 0 0 0 (spec :: rest)).manifest,
      (runLoop ⟨none, 0⟩ 0 0 0 (spec :: rest)).executed, true, false,
      some (runLoop ⟨none, 0⟩ 0 0 0 (spec :: rest)).halt⟩ : RunResult)
    = ⟨true, 1, 0, true, false, some (Halt.error e)⟩
  rw [h]

/-- Closed instantiation of the amended C5 at the failing click step. -/
theorem C5_witness :
    run_task false false [failingClickStep]
      = ⟨true, 1, 0, true, false,
          some (Halt.error "Could not click: No valid coordinates or selector worked.")⟩ :=
  C5_amended_exhaustion_halts failingClickStep [] _ (by rfl) (by rfl)

/-- Claim C6 counterexample: when `browser.start()` raises, the exception
propagates before the try block is entered, so no manifest is written and
the session is not closed. -/
theorem C6_counterexample :
    (run_task true false []).manifestSaved = false
    ∧ (run_task true false []).browserStopped = false
    ∧ (run_task true false []).raisedToCaller = true := by
  exact ⟨rfl, rfl, rfl⟩

/-- Claim C6 amended: once the session has started, every exit path of the
run — normal completion, fail, stall, step ceiling, navigation failure or
any error inside the loop — persists the manifest and closes the session,
and no exception reaches the caller. -/
theorem C6_amended_teardown :
    ∀ (navigateFails : Bool) (steps : List StepSpec),
      (run_task false navigateFails steps).manifestSaved = true
      ∧ (run_task false navigateFails steps).browserStopped = true
      ∧ (run_task false navigateFails steps).raisedToCaller = false := by
  intro nav steps
  cases nav
  · exact ⟨rfl, rfl, rfl⟩
  · exact ⟨rfl, rfl, rfl⟩

/-- A parsed payload carrying an unrecognized action. -/
def bogusDecision : Decision := ⟨"explore", none, none, none, none, none, none, none⟩

/-- Scripted step delivering the unrecognized payload. -/
def bogusStep : StepSpec := ⟨OracleResponse.payload bogusDecision, [], true, true⟩

/-- Claim C7 counterexample: a payload that parses but carries an
unrecognized action is returned unchanged, not converted to `fail`, and the
run continues past it to the next step instead of halting as a `fail`
action would. -/
theorem C7_counterexample :
    (analyze_state_and_decide (OracleResponse.payload bogusDecision)).action = "explore"
    ∧ (analyze_state_and_decide (OracleResponse.payload bogusDecision)).action ≠ "fail"
    ∧ run_task false false [bogusStep, finishStep]
        = ⟨true, 2, 0, true, false, some Halt.finished⟩ := by
  refine ⟨rfl, by decide, by decide⟩

/-- Claim C7 amended: an exception in the oracle round-trip or its JSON
parse is converted to a `fail` decision carrying the error text and never
propagates — the run then halts as failed at that step — while a payload
that parses without a recognized action is dispatched as unknown and the
run continues to the next step. -/
theorem C7_amended_oracle_failure :
    (∀ msg : String, analyze_state_and_decide (OracleResponse.apiError msg)
        = ⟨"fail", none, none, none, none, none, none, some msg⟩)
    ∧ (∀ (msg : String) (spec : StepSpec) (rest : List StepSpec),
        spec.oracle = OracleResponse.apiError msg →
        run_task false false (spec :: rest)
          = ⟨true, 1, 0, true, false, some Halt.failed⟩)
    ∧ (∀ (d : Decision) (spec : StepSpec) (rest : List StepSpec),
        spec.oracle = OracleResponse.payload d →
        d.action ≠ "finish" → d.action ≠ "fail" → d.action ≠ "click" →
        d.action ≠ "type" → d.action ≠ "press" → d.action ≠ "scroll" →
        d.action ≠ "navigate" →
        runLoop ⟨none, 0⟩ 0 0 0 (spec :: rest)
          = runLoop ⟨some (actionKey d), 1⟩ 1 1 0 rest) := by
  refine ⟨fun msg => rfl, ?_, ?_⟩
  · intro msg spec rest ho
    have hfail : runLoop ⟨none, 0⟩ 0 0 0 (spec :: rest) = ⟨1, 0, Halt.failed⟩ := by
      rw [runLoop, ho]
      rfl
    show (⟨true, (runLoop ⟨none, 0⟩ 0 0 0 (spec :: rest)).manifest,
        (runLoop ⟨none, 0⟩ 0 0 0 (spec :: rest)).executed, true, false,
        some (runLoop ⟨none, 0⟩ 0 0 0 (spec :: rest)).halt⟩ : RunResult)
      = ⟨true, 1, 0, true, false, some Halt.failed⟩
    rw [hfail]
  · intro d spec rest ho h1 h2 h3 h4 h5 h6 h7
    rw [runLoop, ho]
    rw [show analyze_state_and_decide (OracleResponse.payload d) = d from rfl]
    rw [if_neg (by omega : ¬ 20 ≤ 0)]
    rw [guardStep_reset (by simp :
      (⟨none, 0⟩ : GuardState).lastKey ≠ some (actionKey d))]
    rw [if_neg (by simp :
      ¬ ((⟨some (actionKey d), 1⟩, false) : GuardState × Bool).2 = true)]
    rw [if_neg (by simp [h1] : ¬ (d.action == "finish") = true)]
    rw [if_neg (by simp [h2] : ¬ (d.action == "fail") = true)]
    rw [if_neg (by simp [h3] : ¬ (d.action == "click") = true)]
    rw [if_neg (by simp [h4] : ¬ (d.action == "type") = true)]
    rw [if_neg (by simp [h5, h6, h7] :
      ¬ (d.action == "press" || d.action == "scroll" || d.action == "navigate") = true)]

/-- Closed instantiation of the amended C7: an oracle exception run halts
as failed with one manifest entry. -/
theorem C7_witness :
    run_task false false [⟨OracleResponse.apiError "boom", [], true, true⟩]
      = ⟨true, 1, 0, true, false, some Halt.failed⟩ :=
  C7_amended_oracle_failure.2.1 "boom" ⟨OracleResponse.apiError "boom", [], true, true⟩ [] rfl
